import Mathlib

/-!
Shallow embedding of `src/netlist.rs` from the `netlistx-rs` repository.

The Rust code defines a `Netlist` struct over a petgraph `Graph<String, ()>`:
node indices are assigned in insertion order, edges store pairs of node
indices.  We model the graph as a list of node labels (index = position)
together with a list of directed index pairs, and the `Netlist` struct field
by field.  `HashMap<String, i32>` fields are modelled as association lists
with first-match lookup, `HashSet<String>` as a list with membership.
-/

namespace Netlistx

/-- Model of petgraph `Graph<String, ()>`: `nodes` holds the label of node
`i` at position `i` (petgraph assigns indices in insertion order), `edges`
the inserted `(source, target)` index pairs in insertion order. -/
structure Graph where
  nodes : List String
  edges : List (Nat × Nat)
deriving DecidableEq, Repr

/-- `Graph::new()`: an empty graph. -/
def Graph.empty : Graph :=
  { nodes := [], edges := [] }

/-- `Graph::add_node`: appends a node; the fresh node gets index
`nodes.length` (the old node count). -/
def Graph.add_node (g : Graph) (s : String) : Graph :=
  { g with nodes := g.nodes ++ [s] }

/-- `Graph::add_edge` at already-resolved indices: appends the pair. -/
def Graph.ins_edge (g : Graph) (a b : Nat) : Graph :=
  { g with edges := g.edges ++ [(a, b)] }

/-- `self.grph.node_indices().find(|i| self.grph[*i] == s)`: the first node
index whose label equals `s`. -/
def Graph.findNode (g : Graph) (s : String) : Option Nat :=
  g.nodes.findIdx? (fun t => t == s)

/-- Number of edge records incident to node index `i` (either endpoint). -/
def Graph.degreeAt (g : Graph) (i : Nat) : Nat :=
  (g.edges.filter (fun e => e.1 == i || e.2 == i)).length

/-- The `Netlist` struct of `src/netlist.rs`, field by field.  `i32` scalars
become `Int`, `usize`/`u32` counters become `Nat`, the optional hash maps
become optional association lists, the fixed set a list. -/
structure Netlist where
  num_pads : Int
  cost_model : Int
  grph : Graph
  modules : List String
  nets : List String
  num_modules : Nat
  num_nets : Nat
  net_weight : Option (List (String × Int))
  module_weight : Option (List (String × Int))
  module_fixed : List String
  max_degree : Nat
  max_net_degree : Nat
deriving DecidableEq, Repr

/-- `Netlist::new()`. -/
def Netlist.new : Netlist :=
  { num_pads := 0
    cost_model := 0
    grph := Graph.empty
    modules := []
    nets := []
    num_modules := 0
    num_nets := 0
    net_weight := none
    module_weight := none
    module_fixed := []
    max_degree := 0
    max_net_degree := 0 }

/-- `impl Default for Netlist`: `Self::new()`. -/
def Netlist.mkDefault : Netlist :=
  Netlist.new

/-- `Netlist::add_module`: pushes the label onto `modules`, adds a graph
node with that label, and sets `num_modules` to `modules.len()`. -/
def Netlist.add_module (nl : Netlist) (module : String) : Netlist :=
  { nl with
    modules := nl.modules ++ [module]
    grph := nl.grph.add_node module
    num_modules := (nl.modules ++ [module]).length }

/-- `Netlist::add_net`: pushes the label onto `nets`, adds a graph node
with that label, and sets `num_nets` to `nets.len()`. -/
def Netlist.add_net (nl : Netlist) (net : String) : Netlist :=
  { nl with
    nets := nl.nets ++ [net]
    grph := nl.grph.add_node net
    num_nets := (nl.nets ++ [net]).length }

/-- `Netlist::add_edge`: resolves both labels by linear scan over all graph
nodes; if both resolve, inserts the edge, otherwise does nothing (no error
value is produced — the function returns unit in Rust). -/
def Netlist.add_edge (nl : Netlist) (net module : String) : Netlist :=
  match nl.grph.findNode net, nl.grph.findNode module with
  | some net_index, some module_index =>
      { nl with grph := nl.grph.ins_edge net_index module_index }
  | _, _ => nl

/-- Derived query (spec §4.2): degree of the entity labelled `s`, counted
as the number of edge records incident to its graph node; `0` when the
label resolves to no node. -/
def Netlist.degree (nl : Netlist) (s : String) : Nat :=
  match nl.grph.findNode s with
  | some i => nl.grph.degreeAt i
  | none => 0

/-- Derived query (spec §4.2): net degree, the same incidence count taken
at a net label. -/
def Netlist.net_degree (nl : Netlist) (s : String) : Nat :=
  match nl.grph.findNode s with
  | some i => nl.grph.degreeAt i
  | none => 0

/-- Lookup in an optional weight map (`Option<HashMap<String, i32>>`):
`none` map or absent key both yield `none`. -/
def weightLookup (w : Option (List (String × Int))) (s : String) : Option Int :=
  match w with
  | none => none
  | some l => (l.find? (fun p => p.1 == s)).map (fun p => p.2)

/-- The three mutating operations of the construction API. -/
inductive Op where
  | addModule (label : String)
  | addNet (label : String)
  | addEdge (net module : String)
deriving DecidableEq, Repr

/-- Whether an `Op` is an `add_module` call. -/
def Op.isAddModule : Op → Bool
  | .addModule _ => true
  | _ => false

/-- Whether an `Op` is an `add_net` call. -/
def Op.isAddNet : Op → Bool
  | .addNet _ => true
  | _ => false

/-- Run one construction call. -/
def applyOp (nl : Netlist) (op : Op) : Netlist :=
  match op with
  | .addModule l => nl.add_module l
  | .addNet l => nl.add_net l
  | .addEdge n m => nl.add_edge n m

/-- Run a sequence of construction calls. -/
def applyOps (nl : Netlist) (ops : List Op) : Netlist :=
  ops.foldl applyOp nl

/-- A netlist state reachable from `new()` by construction calls. -/
def Reachable (nl : Netlist) : Prop :=
  ∃ ops : List Op, applyOps Netlist.new ops = nl

/-- Invariant package maintained by all three construction calls. -/
structure StInv (nl : Netlist) : Prop where
  nm : nl.num_modules = nl.modules.length
  nn : nl.num_nets = nl.nets.length
  nodes : nl.grph.nodes.length = nl.modules.length + nl.nets.length
  mw : nl.module_weight = none
  nw : nl.net_weight = none
  fixed : nl.module_fixed = []
  mods_nodes : ∀ m ∈ nl.modules, m ∈ nl.grph.nodes
  nets_nodes : ∀ n ∈ nl.nets, n ∈ nl.grph.nodes

lemma stInv_new : StInv Netlist.new := by
  constructor <;> simp [Netlist.new, Graph.empty]

lemma add_edge_frame (nl : Netlist) (n m : String) :
    (nl.add_edge n m).grph.nodes = nl.grph.nodes ∧
    (nl.add_edge n m).modules = nl.modules ∧
    (nl.add_edge n m).nets = nl.nets ∧
    (nl.add_edge n m).num_modules = nl.num_modules ∧
    (nl.add_edge n m).num_nets = nl.num_nets ∧
    (nl.add_edge n m).module_weight = nl.module_weight ∧
    (nl.add_edge n m).net_weight = nl.net_weight ∧
    (nl.add_edge n m).module_fixed = nl.module_fixed ∧
    (nl.add_edge n m).num_pads = nl.num_pads ∧
    (nl.add_edge n m).cost_model = nl.cost_model ∧
    (nl.add_edge n m).max_degree = nl.max_degree ∧
    (nl.add_edge n m).max_net_degree = nl.max_net_degree := by
  unfold Netlist.add_edge
  split <;> simp [Graph.ins_edge]

lemma mem_of_findNode_isSome {g : Graph} {s : String}
    (h : s ∈ g.nodes) : (g.findNode s).isSome := by
  unfold Graph.findNode
  rw [List.findIdx?_isSome, List.any_eq_true]
  exact ⟨s, h, by simp⟩

lemma stInv_applyOp {nl : Netlist} (h : StInv nl) (op : Op) :
    StInv (applyOp nl op) := by
  cases op with
  | addModule l =>
      refine ⟨?_, ?_, ?_, ?_, ?_, ?_, ?_, ?_⟩
      · simp [applyOp, Netlist.add_module]
      · simp [applyOp, Netlist.add_module, h.nn]
      · simp [applyOp, Netlist.add_module, Graph.add_node, h.nodes]
        omega
      · simp [applyOp, Netlist.add_module, h.mw]
      · simp [applyOp, Netlist.add_module, h.nw]
      · simp [applyOp, Netlist.add_module, h.fixed]
      · intro m hm
        simp only [applyOp, Netlist.add_module, Graph.add_node] at hm ⊢
        rcases List.mem_append.mp hm with hm | hm
        · exact List.mem_append.mpr (Or.inl (h.mods_nodes m hm))
        · exact List.mem_append.mpr (Or.inr hm)
      · intro n hn
        simp only [applyOp, Netlist.add_module, Graph.add_node] at hn ⊢
        exact List.mem_append.mpr (Or.inl (h.nets_nodes n hn))
  | addNet l =>
      refine ⟨?_, ?_, ?_, ?_, ?_, ?_, ?_, ?_⟩
      · simp [applyOp, Netlist.add_net, h.nm]
      · simp [applyOp, Netlist.add_net]
      · simp [applyOp, Netlist.add_net, Graph.add_node, h.nodes]
        omega
      · simp [applyOp, Netlist.add_net, h.mw]
      · simp [applyOp, Netlist.add_net, h.nw]
      · simp [applyOp, Netlist.add_net, h.fixed]
      · intro m hm
        simp only [applyOp, Netlist.add_net, Graph.add_node] at hm ⊢
        exact List.mem_append.mpr (Or.inl (h.mods_nodes m hm))
      · intro n hn
        simp only [applyOp, Netlist.add_net, Graph.add_node] at hn ⊢
        rcases List.mem_append.mp hn with hn | hn
        · exact List.mem_append.mpr (Or.inl (h.nets_nodes n hn))
        · exact List.mem_append.mpr (Or.inr hn)
  | addEdge n m =>
      obtain ⟨e1, e2, e3, e4, e5, e6, e7, e8, _, _, _, _⟩ := add_edge_frame nl n m
      refine ⟨?_, ?_, ?_, ?_, ?_, ?_, ?_, ?_⟩ <;> simp only [applyOp]
      · rw [e4, e2]; exact h.nm
      · rw [e5, e3]; exact h.nn
      · rw [e1, e2, e3]; exact h.nodes
      · rw [e6]; exact h.mw
      · rw [e7]; exact h.nw
      · rw [e8]; exact h.fixed
      · rw [e1, e2]; exact h.mods_nodes
      · rw [e1, e3]; exact h.nets_nodes

lemma stInv_applyOps {nl : Netlist} (h : StInv nl) (ops : List Op) :
    StInv (applyOps nl ops) := by
  induction ops generalizing nl with
  | nil => exact h
  | cons op ops ih => exact ih (stInv_applyOp h op)

lemma stInv_reachable {nl : Netlist} (h : Reachable nl) : StInv nl := by
  obtain ⟨ops, rfl⟩ := h
  exact stInv_applyOps stInv_new ops

/-- Scenario A of the spec: `add_module("m1")`, `add_net("n1")`,
`add_edge("n1","m1")` starting from the empty netlist. -/
def scenarioA : Netlist :=
  applyOps Netlist.new [Op.addModule "m1", Op.addNet "n1", Op.addEdge "n1" "m1"]

/-- Scenario C of the spec: modules `a0,a1,a2`, nets `a3,a4,a5`, edges
`(a3,a0)`, `(a3,a1)`, `(a5,a0)`, built through the construction API. -/
def scenarioC : Netlist :=
  applyOps Netlist.new
    [Op.addModule "a0", Op.addModule "a1", Op.addModule "a2",
     Op.addNet "a3", Op.addNet "a4", Op.addNet "a5",
     Op.addEdge "a3" "a0", Op.addEdge "a3" "a1", Op.addEdge "a5" "a0"]

/-- C1: the claim is false on the code.  After `add_module("m1")` and
`add_module("m2")` — with no `add_net` call at all — `add_edge("m1","m2")`
still inserts an edge (the edge list grows from empty to one entry), even
though `"m1"` was never added via `add_net`; and no error value exists. -/
theorem C1_counterexample :
    ((applyOps Netlist.new [Op.addModule "m1", Op.addModule "m2"]).add_edge
        "m1" "m2").grph.edges.length = 1 ∧
    (applyOps Netlist.new [Op.addModule "m1", Op.addModule "m2"]).nets = [] ∧
    (applyOps Netlist.new
        [Op.addModule "m1", Op.addModule "m2"]).grph.edges.length = 0 := by
  decide

/-- C1 (amended): `add_edge(n, m)` inserts exactly one edge iff both labels
resolve (by linear scan) to nodes of the incidence graph, regardless of
whether they were added as nets or modules; when either label is
unresolved the call is a silent no-op — it returns with the netlist
completely unchanged and surfaces no error to the caller. -/
theorem C1_add_edge_amended (nl : Netlist) (n m : String) :
    (∀ a b, nl.grph.findNode n = some a → nl.grph.findNode m = some b →
      nl.add_edge n m = { nl with grph := nl.grph.ins_edge a b }) ∧
    ((nl.grph.findNode n = none ∨ nl.grph.findNode m = none) →
      nl.add_edge n m = nl) := by
  constructor
  · intro a b ha hb
    unfold Netlist.add_edge
    rw [ha, hb]
  · intro h
    unfold Netlist.add_edge
    cases hn : nl.grph.findNode n <;> cases hm : nl.grph.findNode m <;>
      try rfl
    rcases h with h | h <;> simp_all

/-- C1 amended, instantiated: on the netlist with module `m1` and net `n1`,
`add_edge("n1","m1")` appends the edge `(1, 0)`, and `add_edge` at the
unknown label `zz` returns the netlist unchanged. -/
theorem C1_add_edge_amended_witness :
    ((applyOps Netlist.new [Op.addModule "m1", Op.addNet "n1"]).add_edge
        "n1" "m1" =
      { applyOps Netlist.new [Op.addModule "m1", Op.addNet "n1"] with
        grph := (applyOps Netlist.new
          [Op.addModule "m1", Op.addNet "n1"]).grph.ins_edge 1 0 }) ∧
    ((applyOps Netlist.new [Op.addModule "m1", Op.addNet "n1"]).add_edge
        "zz" "m1" =
      applyOps Netlist.new [Op.addModule "m1", Op.addNet "n1"]) :=
  ⟨(C1_add_edge_amended _ "n1" "m1").1 1 0 (by decide) (by decide),
   (C1_add_edge_amended _ "zz" "m1").2 (Or.inl (by decide))⟩

/-- C2: the claim is false on the code.  With two modules `a`, `b` and no
nets, `add_edge("a","b")` inserts the edge `(0, 1)` joining the two module
nodes: the API boundary does not enforce bipartiteness. -/
theorem C2_counterexample :
    (applyOps Netlist.new
        [Op.addModule "a", Op.addModule "b", Op.addEdge "a" "b"]).grph.edges
      = [(0, 1)] ∧
    (applyOps Netlist.new
        [Op.addModule "a", Op.addModule "b", Op.addEdge "a" "b"]).modules
      = ["a", "b"] ∧
    (applyOps Netlist.new
        [Op.addModule "a", Op.addModule "b", Op.addEdge "a" "b"]).nets
      = [] := by
  decide

/-- C2 (amended): in any reachable netlist state, calling `add_edge` with
two labels that are both module labels inserts an edge anyway (the edge
list grows by one): `add_edge` resolves its arguments against all graph
nodes without checking kinds, so bipartiteness is not enforced at the API
boundary. -/
theorem C2_add_edge_module_module (nl : Netlist) (h : Reachable nl)
    (m1 m2 : String) (h1 : m1 ∈ nl.modules) (h2 : m2 ∈ nl.modules) :
    (nl.add_edge m1 m2).grph.edges.length = nl.grph.edges.length + 1 := by
  have inv := stInv_reachable h
  obtain ⟨a, ha⟩ :=
    Option.isSome_iff_exists.mp (mem_of_findNode_isSome (inv.mods_nodes m1 h1))
  obtain ⟨b, hb⟩ :=
    Option.isSome_iff_exists.mp (mem_of_findNode_isSome (inv.mods_nodes m2 h2))
  unfold Netlist.add_edge
  rw [ha, hb]
  simp [Graph.ins_edge]

/-- C2 amended, instantiated: after adding modules `a` and `b`, the
module–module call `add_edge("a","b")` grows the edge list by one. -/
theorem C2_add_edge_module_module_witness :
    ((applyOps Netlist.new [Op.addModule "a", Op.addModule "b"]).add_edge
        "a" "b").grph.edges.length =
      (applyOps Netlist.new
        [Op.addModule "a", Op.addModule "b"]).grph.edges.length + 1 :=
  C2_add_edge_module_module _ ⟨[Op.addModule "a", Op.addModule "b"], rfl⟩
    "a" "b" (by decide) (by decide)

/-- C3: the claim is false on the code.  Calling `add_module("m1")` twice
appends `"m1"` twice and creates two graph nodes with the same label; no
`DuplicateEntity` error exists and the second call is not a no-op. -/
theorem C3_counterexample :
    (applyOps Netlist.new [Op.addModule "m1", Op.addModule "m1"]).modules
      = ["m1", "m1"] ∧
    (applyOps Netlist.new [Op.addModule "m1", Op.addModule "m1"]).grph.nodes
      = ["m1", "m1"] ∧
    (applyOps Netlist.new [Op.addModule "m1", Op.addModule "m1"]).num_modules
      = 2 := by
  decide

/-- C3 (amended): `add_module` with a label already present in the modules
collection unconditionally appends it again and creates a second graph
node carrying the same label (and symmetrically for `add_net`): duplicates
are neither rejected nor ignored. -/
theorem C3_duplicate_creates_second_node (nl : Netlist) (l : String) :
    (l ∈ nl.modules →
      (nl.add_module l).modules = nl.modules ++ [l] ∧
      (nl.add_module l).grph.nodes = nl.grph.nodes ++ [l] ∧
      (nl.add_module l).modules.length = nl.modules.length + 1) ∧
    (l ∈ nl.nets →
      (nl.add_net l).nets = nl.nets ++ [l] ∧
      (nl.add_net l).grph.nodes = nl.grph.nodes ++ [l] ∧
      (nl.add_net l).nets.length = nl.nets.length + 1) := by
  constructor <;> intro _ <;>
    simp [Netlist.add_module, Netlist.add_net, Graph.add_node]

/-- C3 amended, instantiated at a netlist already containing module `m1`
and net `n1`: re-adding each duplicates it. -/
theorem C3_duplicate_creates_second_node_witness :
    (((applyOps Netlist.new [Op.addModule "m1", Op.addNet "n1"]).add_module
          "m1").modules =
        (applyOps Netlist.new
          [Op.addModule "m1", Op.addNet "n1"]).modules ++ ["m1"] ∧
      ((applyOps Netlist.new [Op.addModule "m1", Op.addNet "n1"]).add_module
          "m1").grph.nodes =
        (applyOps Netlist.new
          [Op.addModule "m1", Op.addNet "n1"]).grph.nodes ++ ["m1"] ∧
      ((applyOps Netlist.new [Op.addModule "m1", Op.addNet "n1"]).add_module
          "m1").modules.length =
        (applyOps Netlist.new
          [Op.addModule "m1", Op.addNet "n1"]).modules.length + 1) ∧
    (((applyOps Netlist.new [Op.addModule "m1", Op.addNet "n1"]).add_net
          "n1").nets =
        (applyOps Netlist.new
          [Op.addModule "m1", Op.addNet "n1"]).nets ++ ["n1"] ∧
      ((applyOps Netlist.new [Op.addModule "m1", Op.addNet "n1"]).add_net
          "n1").grph.nodes =
        (applyOps Netlist.new
          [Op.addModule "m1", Op.addNet "n1"]).grph.nodes ++ ["n1"] ∧
      ((applyOps Netlist.new [Op.addModule "m1", Op.addNet "n1"]).add_net
          "n1").nets.length =
        (applyOps Netlist.new
          [Op.addModule "m1", Op.addNet "n1"]).nets.length + 1) :=
  ⟨(C3_duplicate_creates_second_node
      (applyOps Netlist.new [Op.addModule "m1", Op.addNet "n1"]) "m1").1
      (by decide),
   (C3_duplicate_creates_second_node
      (applyOps Netlist.new [Op.addModule "m1", Op.addNet "n1"]) "n1").2
      (by decide)⟩

/-- C4: the claim is false on the code.  In Scenario C the three degree
values are as stated, but the `max_degree` field is `0`, not `2`:
`add_edge` never maintains it. -/
theorem C4_counterexample :
    ¬(scenarioC.degree "a0" = 2 ∧ scenarioC.degree "a1" = 1 ∧
      scenarioC.net_degree "a4" = 0 ∧ scenarioC.max_degree = 2) := by
  decide

/-- C4 (amended): in Scenario C, `degree("a0") = 2`, `degree("a1") = 1`,
`net_degree("a4") = 0`, and the `max_degree` field equals `0`, because no
construction call ever updates it. -/
theorem C4_scenarioC_degrees :
    scenarioC.degree "a0" = 2 ∧ scenarioC.degree "a1" = 1 ∧
    scenarioC.net_degree "a4" = 0 ∧ scenarioC.max_degree = 0 := by
  decide

lemma applyOp_modules_length (nl : Netlist) (op : Op) :
    (applyOp nl op).modules.length =
      nl.modules.length + (Op.isAddModule op).toNat := by
  cases op with
  | addModule l => simp [applyOp, Netlist.add_module, Op.isAddModule]
  | addNet l => simp [applyOp, Netlist.add_net, Op.isAddModule]
  | addEdge n m =>
      obtain ⟨_, e2, _⟩ := add_edge_frame nl n m
      simp [applyOp, e2, Op.isAddModule]

lemma applyOp_nets_length (nl : Netlist) (op : Op) :
    (applyOp nl op).nets.length =
      nl.nets.length + (Op.isAddNet op).toNat := by
  cases op with
  | addModule l => simp [applyOp, Netlist.add_module, Op.isAddNet]
  | addNet l => simp [applyOp, Netlist.add_net, Op.isAddNet]
  | addEdge n m =>
      obtain ⟨_, _, e3, _⟩ := add_edge_frame nl n m
      simp [applyOp, e3, Op.isAddNet]

lemma applyOps_modules_length (ops : List Op) : ∀ nl : Netlist,
    (applyOps nl ops).modules.length =
      nl.modules.length + (ops.filter Op.isAddModule).length := by
  induction ops with
  | nil => simp [applyOps]
  | cons op ops ih =>
      intro nl
      have hstep : applyOps nl (op :: ops) = applyOps (applyOp nl op) ops := rfl
      rw [hstep, ih, applyOp_modules_length]
      cases hop : Op.isAddModule op
      · simp [List.filter_cons, hop]
      · simp [List.filter_cons, hop]
        omega

lemma applyOps_nets_length (ops : List Op) : ∀ nl : Netlist,
    (applyOps nl ops).nets.length =
      nl.nets.length + (ops.filter Op.isAddNet).length := by
  induction ops with
  | nil => simp [applyOps]
  | cons op ops ih =>
      intro nl
      have hstep : applyOps nl (op :: ops) = applyOps (applyOp nl op) ops := rfl
      rw [hstep, ih, applyOp_nets_length]
      cases hop : Op.isAddNet op
      · simp [List.filter_cons, hop]
      · simp [List.filter_cons, hop]
        omega

/-- C5: after any sequence of construction calls starting from `new()`,
`num_modules` equals the length of the modules collection, which in turn
equals the number of `add_module` calls in the sequence (every such call
succeeds), and `num_nets` likewise equals the length of the nets
collection and the number of `add_net` calls.  Since this holds for every
sequence, it holds at every point of every call sequence. -/
theorem C5_count_invariant (ops : List Op) :
    (applyOps Netlist.new ops).num_modules =
      (applyOps Netlist.new ops).modules.length ∧
    (applyOps Netlist.new ops).num_nets =
      (applyOps Netlist.new ops).nets.length ∧
    (applyOps Netlist.new ops).modules.length =
      (ops.filter Op.isAddModule).length ∧
    (applyOps Netlist.new ops).nets.length =
      (ops.filter Op.isAddNet).length := by
  have inv := stInv_applyOps stInv_new ops
  refine ⟨inv.nm, inv.nn, ?_, ?_⟩
  · have h := applyOps_modules_length ops Netlist.new
    simpa [Netlist.new] using h
  · have h := applyOps_nets_length ops Netlist.new
    simpa [Netlist.new] using h

/-- C6: Scenario A — from the empty netlist, `add_module("m1")`,
`add_net("n1")`, `add_edge("n1","m1")` yields `num_modules = 1`,
`num_nets = 1`, `degree("m1") = 1` and `net_degree("n1") = 1`. -/
theorem C6_scenarioA :
    scenarioA.num_modules = 1 ∧ scenarioA.num_nets = 1 ∧
    scenarioA.degree "m1" = 1 ∧ scenarioA.net_degree "n1" = 1 := by
  decide

/-- C7: on any reachable netlist state, `add_module(label)` increments
`num_modules` by exactly one, the new module has no weight (the
`module_weight` lookup at `label` is absent) and is not fixed, and every
field other than `modules`, `num_modules` and the graph's node list is
unchanged — `nets`, `num_nets`, `net_weight`, `module_weight`,
`module_fixed`, `num_pads`, `cost_model`, `max_degree`, `max_net_degree`
and the existing edges are all preserved. -/
theorem C7_add_module_post (nl : Netlist) (label : String)
    (h : Reachable nl) :
    (nl.add_module label).num_modules = nl.num_modules + 1 ∧
    weightLookup (nl.add_module label).module_weight label = none ∧
    label ∉ (nl.add_module label).module_fixed ∧
    (nl.add_module label).modules = nl.modules ++ [label] ∧
    (nl.add_module label).grph.nodes = nl.grph.nodes ++ [label] ∧
    (nl.add_module label).nets = nl.nets ∧
    (nl.add_module label).num_nets = nl.num_nets ∧
    (nl.add_module label).net_weight = nl.net_weight ∧
    (nl.add_module label).module_weight = nl.module_weight ∧
    (nl.add_module label).module_fixed = nl.module_fixed ∧
    (nl.add_module label).num_pads = nl.num_pads ∧
    (nl.add_module label).cost_model = nl.cost_model ∧
    (nl.add_module label).max_degree = nl.max_degree ∧
    (nl.add_module label).max_net_degree = nl.max_net_degree ∧
    (nl.add_module label).grph.edges = nl.grph.edges := by
  have inv := stInv_reachable h
  refine ⟨?_, ?_, ?_, ?_, ?_, ?_, ?_, ?_, ?_, ?_, ?_, ?_, ?_, ?_, ?_⟩ <;>
    simp [Netlist.add_module, Graph.add_node, inv.nm, inv.mw, inv.fixed,
      weightLookup]

/-- C7, instantiated at the empty netlist and label `m1`: all fifteen
postconditions evaluated concretely. -/
theorem C7_add_module_post_witness :
    (Netlist.new.add_module "m1").num_modules = Netlist.new.num_modules + 1 ∧
    weightLookup (Netlist.new.add_module "m1").module_weight "m1" = none ∧
    "m1" ∉ (Netlist.new.add_module "m1").module_fixed ∧
    (Netlist.new.add_module "m1").modules = Netlist.new.modules ++ ["m1"] ∧
    (Netlist.new.add_module "m1").grph.nodes =
      Netlist.new.grph.nodes ++ ["m1"] ∧
    (Netlist.new.add_module "m1").nets = Netlist.new.nets ∧
    (Netlist.new.add_module "m1").num_nets = Netlist.new.num_nets ∧
    (Netlist.new.add_module "m1").net_weight = Netlist.new.net_weight ∧
    (Netlist.new.add_module "m1").module_weight =
      Netlist.new.module_weight ∧
    (Netlist.new.add_module "m1").module_fixed = Netlist.new.module_fixed ∧
    (Netlist.new.add_module "m1").num_pads = Netlist.new.num_pads ∧
    (Netlist.new.add_module "m1").cost_model = Netlist.new.cost_model ∧
    (Netlist.new.add_module "m1").max_degree = Netlist.new.max_degree ∧
    (Netlist.new.add_module "m1").max_net_degree =
      Netlist.new.max_net_degree ∧
    (Netlist.new.add_module "m1").grph.edges = Netlist.new.grph.edges :=
  C7_add_module_post Netlist.new "m1" ⟨[], rfl⟩

/-- C8: `new()` returns the empty netlist — zero counters, empty module
and net collections, a graph with no nodes and no edges, absent weight
maps, an empty fixed set, `num_pads = 0`, `cost_model = 0`,
`max_degree = 0`, `max_net_degree = 0` — and `Default::default()` returns
exactly `new()`. -/
theorem C8_new_empty :
    Netlist.new.num_modules = 0 ∧ Netlist.new.num_nets = 0 ∧
    Netlist.new.modules = [] ∧ Netlist.new.nets = [] ∧
    Netlist.new.grph.nodes = [] ∧ Netlist.new.grph.edges = [] ∧
    Netlist.new.module_weight = none ∧ Netlist.new.net_weight = none ∧
    Netlist.new.module_fixed = [] ∧ Netlist.new.num_pads = 0 ∧
    Netlist.new.cost_model = 0 ∧ Netlist.new.max_degree = 0 ∧
    Netlist.new.max_net_degree = 0 ∧ Netlist.mkDefault = Netlist.new := by
  decide

/-- C9: after any sequence of construction calls starting from `new()`,
the graph's node count equals `num_modules + num_nets`: each `add_module`
and each `add_net` creates exactly one node and `add_edge` creates none. -/
theorem C9_node_count (ops : List Op) :
    (applyOps Netlist.new ops).grph.nodes.length =
      (applyOps Netlist.new ops).num_modules +
        (applyOps Netlist.new ops).num_nets := by
  have inv := stInv_applyOps stInv_new ops
  rw [inv.nm, inv.nn]
  exact inv.nodes

/-- C10: `add_module` and `add_net` are total and never signal an error:
for every netlist state and every string label — the empty string and
already-present labels included, since no side condition restricts
`label` — the call unconditionally appends the label to its collection and
adds one graph node, and returns the updated netlist rather than any
`Result`/`Option`-style error value (in this embedding all three
operations have type `Netlist → ... → Netlist`). -/
theorem C10_total_append (nl : Netlist) (label : String) :
    (nl.add_module label).modules = nl.modules ++ [label] ∧
    (nl.add_module label).grph.nodes = nl.grph.nodes ++ [label] ∧
    (nl.add_module label).num_modules = nl.modules.length + 1 ∧
    (nl.add_net label).nets = nl.nets ++ [label] ∧
    (nl.add_net label).grph.nodes = nl.grph.nodes ++ [label] ∧
    (nl.add_net label).num_nets = nl.nets.length + 1 := by
  refine ⟨?_, ?_, ?_, ?_, ?_, ?_⟩ <;>
    simp [Netlist.add_module, Netlist.add_net, Graph.add_node]

end Netlistx
